import Mathlib

/-!
Shallow embedding of `src/backend/static/js/weather.js` (Weather247).

Times are JavaScript millisecond timestamps (`Date.now()`), modelled as `Int`.
A JavaScript `Map` is modelled as an association list with the `Map` update
semantics (overwrite in place, append new keys at the end).
-/

namespace Weather247

/-! ## JavaScript `Map` primitives used by `WeatherCache` -/

/-- Model of `Map.prototype.get`. -/
def mapGet {β : Type} (m : List (String × β)) (key : String) : Option β :=
  (m.find? (fun e => e.1 = key)).map (fun e => e.2)

/-- Model of `Map.prototype.set`: overwrite an existing key in place,
otherwise append the new entry. -/
def mapSet {β : Type} : List (String × β) → String → β → List (String × β)
  | [], key, v => [(key, v)]
  | (k, w) :: rest, key, v =>
      if k = key then (key, v) :: rest else (k, w) :: mapSet rest key v

/-- Model of `Map.prototype.delete`: remove the entry for the key. -/
def mapDelete {β : Type} : List (String × β) → String → List (String × β)
  | [], _ => []
  | (k, w) :: rest, key =>
      if k = key then rest else (k, w) :: mapDelete rest key

/-! ## `WeatherCache` (weather.js lines 484-523) -/

/-- The record stored by `WeatherCache.set`: `{ data, timestamp: Date.now() }`. -/
structure CacheEntry (α : Type) where
  data : α
  timestamp : Int
  deriving Repr, DecidableEq

/-- The `cache` field of `WeatherCache`: a `Map` from string keys to entries. -/
abbrev Cache (α : Type) : Type := List (String × CacheEntry α)

/-- `WeatherCache.maxAge = 10 * 60 * 1000`. -/
def maxAge : Int := 10 * 60 * 1000

/-- `WeatherCache.get(key)` at current time `now`.  Returns the looked-up
value (absent marker = `none`) together with the cache after the lookup's
side effect (an expired entry found under `key` is deleted). -/
def cacheGet {α : Type} (now : Int) (c : Cache α) (key : String) :
    Option α × Cache α :=
  match mapGet c key with
  | none => (none, c)
  | some item =>
      if now - item.timestamp > maxAge then (none, mapDelete c key)
      else (some item.data, c)

/-- `WeatherCache.set(key, data)` at current time `now`. -/
def cacheSet {α : Type} (now : Int) (c : Cache α) (key : String) (data : α) :
    Cache α :=
  mapSet c key { data := data, timestamp := now }

/-- `WeatherCache.clearExpired()` at current time `now`: iterate over all
entries and delete every one with `now - item.timestamp > maxAge`. -/
def clearExpired {α : Type} (now : Int) : Cache α → Cache α
  | [] => []
  | (k, item) :: rest =>
      if now - item.timestamp > maxAge then clearExpired now rest
      else (k, item) :: clearExpired now rest

/-- `WeatherCache.clear()`. -/
def cacheClear {α : Type} (_ : Cache α) : Cache α := []

/-! ### Helper lemmas about the `Map` model -/

theorem mapGet_mapSet_self {β : Type} (m : List (String × β)) (key : String)
    (v : β) : mapGet (mapSet m key v) key = some v := by
  induction m with
  | nil => simp [mapGet, mapSet, List.find?]
  | cons e rest ih =>
      obtain ⟨k, w⟩ := e
      by_cases h : k = key
      · subst h
        simp [mapGet, mapSet, List.find?]
      · simp only [mapSet, if_neg h]
        simpa [mapGet, List.find?, h] using ih

theorem mem_clearExpired_iff {α : Type} (now : Int) (c : Cache α)
    (e : String × CacheEntry α) :
    e ∈ clearExpired now c ↔ e ∈ c ∧ ¬(now - e.2.timestamp > maxAge) := by
  induction c with
  | nil => simp [clearExpired]
  | cons hd rest ih =>
      obtain ⟨k, item⟩ := hd
      by_cases h : now - item.timestamp > maxAge
      · simp only [clearExpired, if_pos h, ih, List.mem_cons]
        constructor
        · rintro ⟨he, hfresh⟩
          exact ⟨Or.inr he, hfresh⟩
        · rintro ⟨rfl | he, hfresh⟩
          · exact absurd h hfresh
          · exact ⟨he, hfresh⟩
      · simp only [clearExpired, if_neg h, List.mem_cons, ih]
        constructor
        · rintro (rfl | ⟨he, hfresh⟩)
          · exact ⟨Or.inl rfl, h⟩
          · exact ⟨Or.inr he, hfresh⟩
        · rintro ⟨rfl | he, hfresh⟩
          · exact Or.inl rfl
          · exact Or.inr ⟨he, hfresh⟩

theorem clearExpired_sublist {α : Type} (now : Int) (c : Cache α) :
    (clearExpired now c).Sublist c := by
  induction c with
  | nil => simp [clearExpired]
  | cons hd rest ih =>
      obtain ⟨k, item⟩ := hd
      by_cases h : now - item.timestamp > maxAge
      · simp only [clearExpired, if_pos h]
        exact ih.cons _
      · simp only [clearExpired, if_neg h]
        exact ih.cons₂ _

/-! ## Claim theorems for the cache -/

/-- C1: For the TTL cache, immediately after `set(k, v)` a `get(k)` at the
same time returns `v`; and whenever the entry stored under `k` has age
exceeding `maxAge`, `get(k)` returns the absent marker `none` and deletes
that expired entry from the cache. -/
theorem cache_get_set_and_expiry {α : Type} (now : Int) (c : Cache α)
    (key : String) (v : α) :
    (cacheGet now (cacheSet now c key v) key).1 = some v ∧
    (∀ item : CacheEntry α, mapGet c key = some item →
      now - item.timestamp > maxAge →
      cacheGet now c key = (none, mapDelete c key)) := by
  constructor
  · simp [cacheGet, cacheSet, mapGet_mapSet_self, maxAge]
  · intro item hlook hexp
    simp [cacheGet, hlook, if_pos hexp]

/-- C1 witness: concrete instantiation. -/
theorem cache_get_set_and_expiry_witness :
    (cacheGet 1000 (cacheSet 1000 ([] : Cache Nat) "lahore" 42) "lahore").1
      = some 42 ∧
    cacheGet 700001 ([("lahore", ⟨42, 0⟩)] : Cache Nat) "lahore"
      = (none, mapDelete [("lahore", ⟨42, 0⟩)] "lahore") := by
  refine ⟨(cache_get_set_and_expiry 1000 [] "lahore" 42).1, ?_⟩
  exact (cache_get_set_and_expiry 700001 [("lahore", ⟨42, 0⟩)] "lahore" 42).2
    ⟨42, 0⟩ (by decide) (by decide)

/-- C2: `clearExpired()` removes exactly the entries whose age exceeds
`maxAge`: an entry (key, value, timestamp) survives if and only if it was in
the cache and is not expired, and the surviving entries appear unchanged and
in their original order (the result is a sublist of the original). -/
theorem clearExpired_exact {α : Type} (now : Int) (c : Cache α) :
    (∀ e : String × CacheEntry α,
       e ∈ clearExpired now c ↔ e ∈ c ∧ ¬(now - e.2.timestamp > maxAge)) ∧
    (clearExpired now c).Sublist c :=
  ⟨mem_clearExpired_iff now c, clearExpired_sublist now c⟩

/-! ## `UIUtils.debounce` (weather.js lines 415-425)

The wrapped function's closure state is the pending timer: `none`, or the
scheduled fire time together with the captured arguments.  `debounceRun`
replays a time-ordered list of invocations `(t, args)` against the browser
event loop: a pending timer whose due time is `≤ t` fires before the
invocation at `t` is processed (macrotasks run in due-time order); the
invocation then clears any still-pending timer (`clearTimeout(timeout)`) and
schedules `later` at `t + wait` with its own arguments
(`timeout = setTimeout(later, wait)`).  The returned list collects the
underlying calls `(fire time, arguments)` in order. -/
def debounceRun {α : Type} (wait : Nat) :
    List (Nat × α) → Option (Nat × α) → List (Nat × α)
  | [], none => []
  | [], some f => [f]
  | (t, a) :: rest, none => debounceRun wait rest (some (t + wait, a))
  | (t, a) :: rest, some (ft, fa) =>
      if ft ≤ t then (ft, fa) :: debounceRun wait rest (some (t + wait, a))
      else debounceRun wait rest (some (t + wait, a))

/-- Invocation times are close: each consecutive gap is below `wait`, so each
invocation pre-empts the previous invocation's pending timer. -/
def gapsClose {α : Type} (wait : Nat) : List (Nat × α) → Prop
  | [] => True
  | [_] => True
  | (t, _) :: (t', a') :: rest => t' < t + wait ∧ gapsClose wait ((t', a') :: rest)

theorem debounceRun_close {α : Type} (wait : Nat) :
    ∀ (calls : List (Nat × α)) (t : Nat) (a : α),
      gapsClose wait ((t, a) :: calls) →
      debounceRun wait ((t, a) :: calls) none
        = [((((t, a) :: calls).getLast (by simp)).1 + wait,
            (((t, a) :: calls).getLast (by simp)).2)] := by
  intro calls
  induction calls with
  | nil =>
      intro t a _
      simp [debounceRun]
  | cons hd rest ih =>
      obtain ⟨t', a'⟩ := hd
      intro t a
      rintro ⟨hgap, hrest⟩
      have hnotle : ¬(t + wait ≤ t') := by omega
      have step : debounceRun wait ((t, a) :: (t', a') :: rest) none
          = debounceRun wait ((t', a') :: rest) none := by
        simp only [debounceRun]
        rw [if_neg hnotle]
      rw [step, ih t' a' hrest]
      simp [List.getLast]

/-! ## Claim theorems for debounce -/

/-- C3: with `wait = 300` and invocations at t = 0, 50, 100, the underlying
function fires exactly once, at t = 400, with the arguments of the t = 100
invocation; in general, whenever every consecutive gap in a burst of
invocations is below `wait`, each invocation cancels the pending timer and
only the last invocation fires, `wait` after it, with its arguments. -/
theorem debounce_last_call_wins {α : Type} (a0 a1 a2 : α) :
    debounceRun 300 [(0, a0), (50, a1), (100, a2)] none = [(400, a2)] ∧
    (∀ (wait t : Nat) (a : α) (calls : List (Nat × α)),
      gapsClose wait ((t, a) :: calls) →
      debounceRun wait ((t, a) :: calls) none
        = [((((t, a) :: calls).getLast (by simp)).1 + wait,
            (((t, a) :: calls).getLast (by simp)).2)]) := by
  refine ⟨?_, fun wait t a calls h => debounceRun_close wait calls t a h⟩
  simp [debounceRun]

/-- C3 witness: concrete instantiation with numeric arguments. -/
theorem debounce_last_call_wins_witness :
    debounceRun 300 [(0, 7), (50, 8), (100, 9)] none = [(400, 9)] ∧
    debounceRun 300 [(0, 7), (120, 8)] none = [(420, 8)] := by
  refine ⟨(debounce_last_call_wins 7 8 9).1, ?_⟩
  have h := (debounce_last_call_wins (α := Nat) 7 8 9).2 300 0 7 [(120, 8)]
    (by exact ⟨by omega, trivial⟩)
  simpa [List.getLast] using h

/-! ## `UIUtils.throttle` (weather.js lines 428-439)

The closure state is the `inThrottle` flag, modelled as the time at which the
cooldown ends (`none` = flag unset).  On a call at time `t`: if the cooldown
has not yet ended (`t < endT`, the `setTimeout(() => inThrottle = false,
limit)` has not fired) the call is ignored; otherwise the underlying function
fires immediately at `t` with the call's arguments and a new cooldown ends at
`t + limit`.  A timer due exactly at `t` runs before the event at `t`, so a
call at the cooldown boundary fires. -/
def throttleRun {α : Type} (limit : Nat) :
    List (Nat × α) → Option Nat → List (Nat × α)
  | [], _ => []
  | (t, a) :: rest, none => (t, a) :: throttleRun limit rest (some (t + limit))
  | (t, a) :: rest, some endT =>
      if t < endT then throttleRun limit rest (some endT)
      else (t, a) :: throttleRun limit rest (some (t + limit))

/-! ## Claim theorems for throttle -/

/-- C4: with `limit = 200` and invocations at t = 0, 10, 300, the underlying
function fires exactly twice, at t = 0 and at t = 300; in general the first
call fires immediately, a call during the cooldown is ignored and leaves the
cooldown in place, and a call at or after the end of the cooldown fires
immediately and restarts the cooldown. -/
theorem throttle_cooldown {α : Type} (a0 a1 a2 : α) (limit t endT : Nat)
    (b : α) (rest : List (Nat × α)) :
    throttleRun 200 [(0, a0), (10, a1), (300, a2)] none = [(0, a0), (300, a2)] ∧
    throttleRun limit ((t, b) :: rest) none
      = (t, b) :: throttleRun limit rest (some (t + limit)) ∧
    (t < endT →
      throttleRun limit ((t, b) :: rest) (some endT)
        = throttleRun limit rest (some endT)) ∧
    (endT ≤ t →
      throttleRun limit ((t, b) :: rest) (some endT)
        = (t, b) :: throttleRun limit rest (some (t + limit))) := by
  refine ⟨by simp [throttleRun], by simp [throttleRun], ?_, ?_⟩
  · intro hlt
    simp [throttleRun, hlt]
  · intro hge
    simp [throttleRun, Nat.not_lt.mpr hge]

/-- C4 witness: concrete instantiation. -/
theorem throttle_cooldown_witness :
    throttleRun 200 [(0, 5), (10, 6), (300, 7)] none = [(0, 5), (300, 7)] ∧
    throttleRun 200 ([(10, 6)] : List (Nat × Nat)) (some 200)
      = throttleRun 200 [] (some 200) ∧
    throttleRun 200 ([(300, 7)] : List (Nat × Nat)) (some 200)
      = (300, 7) :: throttleRun 200 [] (some 500) := by
  obtain ⟨h1, _, h3, h4⟩ := throttle_cooldown 5 6 7 200 10 200 6 ([] : List (Nat × Nat))
  obtain ⟨_, _, _, h4'⟩ := throttle_cooldown 5 6 7 200 300 200 7 ([] : List (Nat × Nat))
  exact ⟨h1, h3 (by omega), h4' (by omega)⟩

/-! ## `WeatherUtils.getAQILevel` (weather.js lines 33-40) -/

/-- The record returned by `getAQILevel`. -/
structure AQIInfo where
  level : String
  color : String
  description : String
  deriving Repr, DecidableEq

/-- `WeatherUtils.getAQILevel(aqi)`. -/
def getAQILevel (aqi : Int) : AQIInfo :=
  if aqi ≤ 50 then
    ⟨"Good", "green", "Air quality is satisfactory"⟩
  else if aqi ≤ 100 then
    ⟨"Moderate", "yellow", "Air quality is acceptable"⟩
  else if aqi ≤ 150 then
    ⟨"Unhealthy for Sensitive Groups", "orange",
     "Some pollutants may affect sensitive individuals"⟩
  else if aqi ≤ 200 then
    ⟨"Unhealthy", "red", "Everyone may begin to experience health effects"⟩
  else if aqi ≤ 300 then
    ⟨"Very Unhealthy", "purple", "Health warnings of emergency conditions"⟩
  else
    ⟨"Hazardous", "maroon",
     "Health alert: everyone may experience more serious health effects"⟩

/-- C5: `getAQILevel` maps every input in 0-50 to level "Good", every input in
51-100 to "Moderate", every input in 151-200 to "Unhealthy", and the input 501
to "Hazardous" (any value above 300 falls into the worst bucket). -/
theorem getAQILevel_buckets (aqi : Int) :
    (0 ≤ aqi → aqi ≤ 50 → (getAQILevel aqi).level = "Good") ∧
    (51 ≤ aqi → aqi ≤ 100 → (getAQILevel aqi).level = "Moderate") ∧
    (151 ≤ aqi → aqi ≤ 200 → (getAQILevel aqi).level = "Unhealthy") ∧
    (getAQILevel 501).level = "Hazardous" := by
  refine ⟨?_, ?_, ?_, by decide⟩
  · intro _ h2
    unfold getAQILevel
    rw [if_pos h2]
  · intro h1 h2
    unfold getAQILevel
    rw [if_neg (by omega), if_pos h2]
  · intro h1 h2
    unfold getAQILevel
    rw [if_neg (by omega), if_neg (by omega), if_neg (by omega), if_pos h2]

/-- C5 witness: concrete representatives of each bucket. -/
theorem getAQILevel_buckets_witness :
    (getAQILevel 25).level = "Good" ∧ (getAQILevel 75).level = "Moderate" ∧
    (getAQILevel 175).level = "Unhealthy" ∧
    (getAQILevel 501).level = "Hazardous" := by
  obtain ⟨h1, _, _, h4⟩ := getAQILevel_buckets 25
  obtain ⟨_, h2, _, _⟩ := getAQILevel_buckets 75
  obtain ⟨_, _, h3, _⟩ := getAQILevel_buckets 175
  exact ⟨h1 (by omega) (by omega), h2 (by omega) (by omega),
         h3 (by omega) (by omega), h4⟩

/-! ## `WeatherUtils.getWindDirection` (weather.js lines 80-84) -/

/-- The 16-element compass rose array `directions`. -/
def directions : List String :=
  ["N", "NNE", "NE", "ENE", "E", "ESE", "SE", "SSE",
   "S", "SSW", "SW", "WSW", "W", "WNW", "NW", "NNW"]

/-- `Math.round` on an exact rational: round half toward positive infinity. -/
def jsRound (x : ℚ) : Int := ⌊x + 1 / 2⌋

/-- The sector index `Math.round(degrees / 22.5) % 16`.  JavaScript `%` is the
truncating remainder (sign follows the dividend), i.e. `Int.tmod`. -/
def windIndex (degrees : ℚ) : Int := (jsRound (degrees / (22.5 : ℚ))).tmod 16

/-- `WeatherUtils.getWindDirection(degrees)`: index into `directions`; an
out-of-range index (as a negative index would be) yields `undefined`,
modelled as `none`. -/
def getWindDirection (degrees : ℚ) : Option String :=
  if windIndex degrees < 0 then none
  else directions.get? (windIndex degrees).toNat

/-- C6: `getWindDirection` maps 0 degrees to "N", 90 degrees to "E", and 359
degrees to "N": rounding 359 / 22.5 gives sector 16, which wraps to sector 0
modulo 16. -/
theorem getWindDirection_spec_points :
    getWindDirection 0 = some "N" ∧ getWindDirection 90 = some "E" ∧
    getWindDirection 359 = some "N" := by
  refine ⟨?_, ?_, ?_⟩
  · have h : windIndex 0 = 0 := by
      unfold windIndex jsRound
      norm_num
    simp [getWindDirection, h, directions]
  · have h : windIndex 90 = 4 := by
      unfold windIndex jsRound
      norm_num
      try decide
    simp [getWindDirection, h, directions]
  · have h : windIndex 359 = 0 := by
      unfold windIndex jsRound
      norm_num
    simp [getWindDirection, h, directions]

/-- C10: for every rational `degrees` with 0 ≤ degrees ≤ 360, the sector
index lies in 0..15, so the lookup into the 16-element `directions` array is
in bounds and a defined direction string is returned. -/
theorem windIndex_in_bounds (degrees : ℚ) (h0 : 0 ≤ degrees)
    (h360 : degrees ≤ 360) :
    0 ≤ windIndex degrees ∧ windIndex degrees < 16 ∧
    (getWindDirection degrees).isSome = true := by
  have hq : (0 : ℚ) ≤ degrees / (22.5 : ℚ) + 1 / 2 := by positivity
  have hr : 0 ≤ jsRound (degrees / (22.5 : ℚ)) := by
    exact Int.floor_nonneg.mpr hq
  have hnn : 0 ≤ windIndex degrees := Int.tmod_nonneg 16 hr
  have hlt : windIndex degrees < 16 :=
    Int.tmod_lt_of_pos _ (by norm_num)
  refine ⟨hnn, hlt, ?_⟩
  have hlen : (windIndex degrees).toNat < directions.length := by
    simp only [directions, List.length]
    omega
  rw [getWindDirection, if_neg (by omega), List.get?_eq_get hlen]
  rfl

/-- C10 witness: concrete instantiation at 123.4 degrees. -/
theorem windIndex_in_bounds_witness :
    0 ≤ windIndex (617 / 5) ∧ windIndex (617 / 5) < 16 ∧
    (getWindDirection (617 / 5)).isSome = true :=
  windIndex_in_bounds (617 / 5) (by norm_num) (by norm_num)

/-! ## Temperature conversions (weather.js lines 87-94) -/

/-- `WeatherUtils.celsiusToFahrenheit(celsius) = (celsius * 9/5) + 32`. -/
def celsiusToFahrenheit (celsius : ℚ) : ℚ := celsius * 9 / 5 + 32

/-- `WeatherUtils.fahrenheitToCelsius(fahrenheit) = (fahrenheit - 32) * 5/9`. -/
def fahrenheitToCelsius (fahrenheit : ℚ) : ℚ := (fahrenheit - 32) * 5 / 9

/-- C9: over exact rational arithmetic the two temperature conversions are
mutually inverse. -/
theorem temperature_conversions_inverse :
    (∀ c : ℚ, fahrenheitToCelsius (celsiusToFahrenheit c) = c) ∧
    (∀ f : ℚ, celsiusToFahrenheit (fahrenheitToCelsius f) = f) := by
  constructor <;> intro x <;>
    simp only [celsiusToFahrenheit, fahrenheitToCelsius] <;> ring

/-! ## `WeatherAPI` (weather.js lines 108-221)

A `fetch` outcome is either a transport error (the promise rejects) or a
`Response` with its `ok` flag, `status` code and JSON body (`β`).  Each
method performs exactly one fetch; its argument is that single fetch's
outcome.  The error raised to the caller is either the re-thrown transport
error or the explicit `HTTP error! status: ...` thrown when `response.ok`
is false. -/

/-- Model of a resolved `fetch` `Response`. -/
structure Response (β : Type) where
  ok : Bool
  status : Nat
  body : β
  deriving Repr, DecidableEq

/-- The error a `WeatherAPI` method re-throws to its caller. -/
inductive ApiError where
  | transport (msg : String)
  | http (status : Nat)
  deriving Repr, DecidableEq

/-- `WeatherAPI.getCurrentWeather`: re-throw a transport error, throw an
explicit error when `response.ok` is false, otherwise return the parsed
JSON body. -/
def getCurrentWeather {β : Type} (r : Except String (Response β)) :
    Except ApiError β :=
  match r with
  | .error e => .error (.transport e)
  | .ok resp =>
      if ¬resp.ok then .error (.http resp.status) else .ok resp.body

/-- `WeatherAPI.getForecast`: same single-fetch error handling. -/
def getForecast {β : Type} (r : Except String (Response β)) :
    Except ApiError β :=
  match r with
  | .error e => .error (.transport e)
  | .ok resp =>
      if ¬resp.ok then .error (.http resp.status) else .ok resp.body

/-- `WeatherAPI.getHistoricalWeather`: same single-fetch error handling. -/
def getHistoricalWeather {β : Type} (r : Except String (Response β)) :
    Except ApiError β :=
  match r with
  | .error e => .error (.transport e)
  | .ok resp =>
      if ¬resp.ok then .error (.http resp.status) else .ok resp.body

/-- `WeatherAPI.getAlerts`: same single-fetch error handling. -/
def getAlerts {β : Type} (r : Except String (Response β)) :
    Except ApiError β :=
  match r with
  | .error e => .error (.transport e)
  | .ok resp =>
      if ¬resp.ok then .error (.http resp.status) else .ok resp.body

/-- `WeatherAPI.compareCities`: same single-fetch error handling. -/
def compareCities {β : Type} (r : Except String (Response β)) :
    Except ApiError β :=
  match r with
  | .error e => .error (.transport e)
  | .ok resp =>
      if ¬resp.ok then .error (.http resp.status) else .ok resp.body

/-- `WeatherAPI.getAirQuality`: same single-fetch error handling. -/
def getAirQuality {β : Type} (r : Except String (Response β)) :
    Except ApiError β :=
  match r with
  | .error e => .error (.transport e)
  | .ok resp =>
      if ¬resp.ok then .error (.http resp.status) else .ok resp.body

/-- `WeatherAPI.searchCity` (POST): same single-fetch error handling. -/
def searchCity {β : Type} (r : Except String (Response β)) :
    Except ApiError β :=
  match r with
  | .error e => .error (.transport e)
  | .ok resp =>
      if ¬resp.ok then .error (.http resp.status) else .ok resp.body

/-- An API method call raised an error. -/
def isApiError {β : Type} : Except ApiError β → Prop
  | .error _ => True
  | .ok _ => False

/-- The fetch itself failed: transport error, or non-success HTTP status. -/
def fetchFailed {β : Type} : Except String (Response β) → Prop
  | .error _ => True
  | .ok resp => resp.ok = false

/-- C7: every `WeatherAPI` method raises an error if and only if its single
request fails (transport error, or `response.ok` false); a transport error is
re-thrown as such, a non-ok response raises the explicit HTTP-status error,
and an ok response returns the parsed JSON body unchanged. -/
theorem api_error_iff {β : Type} (r : Except String (Response β)) :
    (isApiError (getCurrentWeather r) ↔ fetchFailed r) ∧
    (isApiError (getForecast r) ↔ fetchFailed r) ∧
    (isApiError (getHistoricalWeather r) ↔ fetchFailed r) ∧
    (isApiError (getAlerts r) ↔ fetchFailed r) ∧
    (isApiError (compareCities r) ↔ fetchFailed r) ∧
    (isApiError (getAirQuality r) ↔ fetchFailed r) ∧
    (isApiError (searchCity r) ↔ fetchFailed r) ∧
    (∀ e : String, getCurrentWeather (β := β) (.error e)
        = .error (.transport e)) ∧
    (∀ resp : Response β, resp.ok = false →
        getCurrentWeather (.ok resp) = .error (.http resp.status)) ∧
    (∀ resp : Response β, resp.ok = true →
        getCurrentWeather (.ok resp) = .ok resp.body) := by
  have key : ∀ s : Except String (Response β),
      isApiError (getCurrentWeather s) ↔ fetchFailed s := by
    intro s
    match s with
    | .error e => simp [getCurrentWeather, isApiError, fetchFailed]
    | .ok resp =>
        cases hok : resp.ok <;>
          simp [getCurrentWeather, isApiError, fetchFailed, hok]
  refine ⟨key r, key r, key r, key r, key r, key r, key r, ?_, ?_, ?_⟩
  · intro e
    rfl
  · intro resp hok
    simp [getCurrentWeather, hok]
  · intro resp hok
    simp [getCurrentWeather, hok]

/-- C7 witness: concrete instantiation of every conjunct. -/
theorem api_error_iff_witness :
    (isApiError (getCurrentWeather (.ok (⟨false, 404, 0⟩ : Response Nat)))
      ↔ fetchFailed (.ok (⟨false, 404, 0⟩ : Response Nat))) ∧
    getCurrentWeather (β := Nat) (.error "network down")
      = .error (.transport "network down") ∧
    getCurrentWeather (.ok (⟨false, 404, 0⟩ : Response Nat))
      = .error (.http 404) ∧
    getCurrentWeather (.ok (⟨true, 200, 7⟩ : Response Nat)) = .ok 7 := by
  obtain ⟨h1, _, _, _, _, _, _, h8, h9, h10⟩ :=
    api_error_iff (.ok (⟨false, 404, 0⟩ : Response Nat))
  exact ⟨h1, h8 "network down", h9 ⟨false, 404, 0⟩ rfl, h10 ⟨true, 200, 7⟩ rfl⟩

/-! ## `StorageUtils` (weather.js lines 443-481)

The browser store is a map from keys to strings.  The fallible primitives of
the storage layer are passed in as outcomes: `JSON.stringify` may throw
(serialization error), `setItem` may throw (quota), `getItem` may throw, and
`JSON.parse` may throw.  Every `StorageUtils` operation wraps its body in
`try/catch` and swallows the failure, so its Lean model is a total function:
no error appears in any return type. -/

/-- The underlying `localStorage` contents. -/
abbrev Store : Type := List (String × String)

/-- `StorageUtils.save(key, value)`: on a `JSON.stringify` error or a
`setItem` failure the exception is caught and the store is left unchanged;
otherwise the serialized string is stored under `key`. -/
def storageSave (stringifyResult : Except String String)
    (setItemFails : Bool) (store : Store) (key : String) : Store :=
  match stringifyResult with
  | .error _ => store
  | .ok s => if setItemFails then store else mapSet store key s

/-- `StorageUtils.load(key, defaultValue)`: `getItem` result (which may
fail), then `item ? JSON.parse(item) : defaultValue`; JavaScript truthiness
makes the empty string fall back to the default, and any thrown error is
caught and replaced by the default. -/
def storageLoad {α : Type} (getItemResult : Except String (Option String))
    (parse : String → Except String α) (defaultValue : α) : α :=
  match getItemResult with
  | .error _ => defaultValue
  | .ok none => defaultValue
  | .ok (some item) =>
      if item = "" then defaultValue
      else
        match parse item with
        | .error _ => defaultValue
        | .ok v => v

/-- `StorageUtils.remove(key)`: a `removeItem` failure is caught and leaves
the store unchanged. -/
def storageRemove (removeFails : Bool) (store : Store) (key : String) :
    Store :=
  if removeFails then store else mapDelete store key

/-- `StorageUtils.clear()`: a `clear` failure is caught and leaves the store
unchanged. -/
def storageClear (clearFails : Bool) (store : Store) : Store :=
  if clearFails then store else []

/-- C8: every storage operation is total (failures are swallowed, never
propagated: the operations return plain values, not error results); `load`
returns the provided default whenever the underlying read fails, nothing is
stored under the key, or the stored string fails to parse; and a failing
`save`, `remove` or `clear` leaves the store unchanged. -/
theorem storage_failures_swallowed {α : Type}
    (parse : String → Except String α) (defaultValue : α) (e item : String)
    (store : Store) (key : String) (stringifyResult : Except String String) :
    storageLoad (.error e) parse defaultValue = defaultValue ∧
    storageLoad (.ok none) parse defaultValue = defaultValue ∧
    (parse item = .error e →
      storageLoad (.ok (some item)) parse defaultValue = defaultValue) ∧
    storageSave (.error e) false store key = store ∧
    storageSave stringifyResult true store key = store ∧
    storageRemove true store key = store ∧
    storageClear true store = store := by
  refine ⟨rfl, rfl, ?_, rfl, ?_, rfl, rfl⟩
  · intro hp
    by_cases hempty : item = "" <;> simp [storageLoad, hempty, hp]
  · cases stringifyResult <;> rfl

/-- C8 witness: concrete instantiation. -/
theorem storage_failures_swallowed_witness :
    storageLoad (.error "quota") (fun s => Except.ok s.length) 99 = 99 ∧
    storageLoad (.ok none) (fun s => Except.ok s.length) 99 = 99 ∧
    storageLoad (.ok (some "bad json")) (fun _ => Except.error "quota") 99
      = 99 ∧
    storageSave (.error "quota") false [] "theme" = [] ∧
    storageSave (.ok "dark") true [] "theme" = [] ∧
    storageRemove true [] "theme" = [] ∧
    storageClear true [] = [] := by
  obtain ⟨h1, h2, h3, h4, h5, h6, h7⟩ :=
    storage_failures_swallowed (fun s => Except.ok s.length) 99 "quota"
      "bad json" [] "theme" (.ok "dark")
  have h3' := storage_failures_swallowed (fun _ => Except.error "quota") 99
    "quota" "bad json" ([] : Store) "theme" (Except.ok "dark")
  exact ⟨h1, h2, h3'.2.2.1 rfl, h4, h5, h6, h7⟩

end Weather247
